import Mathlib

/-!
Verification development for the session/process orchestration core of the
flutter-ios-mcp server.  The TypeScript sources are shallowly embedded as
executable Lean definitions:

* `LogBuffer`              — src/flutter/log-buffer.ts
* `FlutterProcessManager`  — src/flutter/process.ts
* `FlutterTestManager`     — src/flutter/test-manager.ts
* `SessionManager`-level operations (path resolution, createSession,
  endSession) — src/session/manager.ts

JavaScript `Map` objects are embedded as insertion-ordered association
lists, timestamps (`Date`) as naturals, and the Node `path` functions as
segment-level POSIX path operations.  Side effects (stdin writes, kill
signals, warnings logged during teardown) are made explicit as returned
action lists.
-/

namespace FlutterIosMcp

/-! ## JavaScript primitives -/

/-- JS `String.prototype.startsWith`: character-level prefix test. -/
def jsStartsWith (s pre : String) : Bool :=
  pre.data.isPrefixOf s.data

/-- JS `String.prototype.includes`: character-level substring test. -/
def jsIncludes (s sub : String) : Bool :=
  decide (sub.data <:+: s.data)

/-- Split a character list at every occurrence of `sep` (the groups keep
their order; `n` separators yield `n + 1` groups). -/
def splitOnChar (sep : Char) : List Char → List (List Char)
  | [] => [[]]
  | c :: rest =>
    if c = sep then
      [] :: splitOnChar sep rest
    else
      match splitOnChar sep rest with
      | [] => [[c]]
      | g :: gs => (c :: g) :: gs

/-- JS `String.prototype.split` with a one-character separator. -/
def jsSplit (s : String) (sep : Char) : List String :=
  (splitOnChar sep s.data).map (fun cs => ⟨cs⟩)

/-- JS `String.prototype.trim`: strip leading and trailing whitespace
(modelled over the ASCII whitespace characters). -/
def jsTrim (s : String) : String :=
  ⟨((s.data.dropWhile Char.isWhitespace).reverse.dropWhile
      Char.isWhitespace).reverse⟩

/-- JS `Map.prototype.has` over an insertion-ordered association list. -/
def mapHas {κ α : Type} [BEq κ] (l : List (κ × α)) (k : κ) : Bool :=
  l.any (fun p => p.1 == k)

/-- JS `Map.prototype.get` (`undefined` becomes `none`). -/
def mapGet {κ α : Type} [BEq κ] (l : List (κ × α)) (k : κ) : Option α :=
  (l.find? (fun p => p.1 == k)).map (fun p => p.2)

/-- JS `Map.prototype.set`: replaces in place if the key exists, else
appends at the end (JS maps preserve insertion order). -/
def mapSet {κ α : Type} [BEq κ] (l : List (κ × α)) (k : κ) (v : α) :
    List (κ × α) :=
  if mapHas l k then
    l.map (fun p => if p.1 == k then (k, v) else p)
  else
    l ++ [(k, v)]

/-- JS `Map.prototype.delete`. -/
def mapDelete {κ α : Type} [BEq κ] (l : List (κ × α)) (k : κ) :
    List (κ × α) :=
  l.filter (fun p => !(p.1 == k))

/-! ## Log buffer (src/flutter/log-buffer.ts) -/

/-- `LogEntry` from src/flutter/types.ts; `Date` timestamps become `Nat`. -/
structure LogEntry where
  line : String
  timestamp : Nat
  index : Nat
deriving Repr, DecidableEq

/-- State of `class LogBuffer` (fields `logs`, `currentIndex`, `maxLines`). -/
structure LogBuffer where
  logs : List LogEntry
  currentIndex : Nat
  maxLines : Nat
deriving Repr, DecidableEq

/-- `new LogBuffer(maxLines)`. -/
def LogBuffer.new (maxLines : Nat) : LogBuffer :=
  ⟨[], 0, maxLines⟩

/-- `LogBuffer.append`: push an entry carrying the next index, then shift
the oldest entry off the front if the buffer has grown past `maxLines`.
`now` stands for `new Date()`. -/
def LogBuffer.append (b : LogBuffer) (line : String) (now : Nat) : LogBuffer :=
  ⟨if b.maxLines < (b.logs ++ [(⟨line, now, b.currentIndex⟩ : LogEntry)]).length then
      (b.logs ++ [(⟨line, now, b.currentIndex⟩ : LogEntry)]).drop 1
    else
      b.logs ++ [(⟨line, now, b.currentIndex⟩ : LogEntry)],
   b.currentIndex + 1, b.maxLines⟩

theorem LogBuffer.append_logs (b : LogBuffer) (line : String) (now : Nat) :
    (b.append line now).logs =
      if b.maxLines < (b.logs ++ [(⟨line, now, b.currentIndex⟩ : LogEntry)]).length then
        (b.logs ++ [(⟨line, now, b.currentIndex⟩ : LogEntry)]).drop 1
      else
        b.logs ++ [(⟨line, now, b.currentIndex⟩ : LogEntry)] := rfl

theorem LogBuffer.append_currentIndex (b : LogBuffer) (line : String)
    (now : Nat) : (b.append line now).currentIndex = b.currentIndex + 1 := rfl

theorem LogBuffer.append_maxLines (b : LogBuffer) (line : String)
    (now : Nat) : (b.append line now).maxLines = b.maxLines := rfl

/-- `LogBuffer.getLogs(fromIndex?, limit = 100)`. -/
def LogBuffer.getLogs (b : LogBuffer) (fromIndex : Option Nat) (limit : Nat) :
    List LogEntry :=
  let filtered :=
    match fromIndex with
    | none => b.logs
    | some i => b.logs.filter (fun e => i ≤ e.index)
  filtered.take limit

/-- `LogBuffer.getNextIndex()`. -/
def LogBuffer.getNextIndex (b : LogBuffer) : Nat :=
  b.currentIndex

/-- `LogBuffer.getTotalLines()`. -/
def LogBuffer.getTotalLines (b : LogBuffer) : Nat :=
  b.logs.length

/-- `LogBuffer.clear()`. -/
def LogBuffer.clear (b : LogBuffer) : LogBuffer :=
  ⟨[], 0, b.maxLines⟩

/-- `LogBuffer.getRecentLines(count)`. -/
def LogBuffer.getRecentLines (b : LogBuffer) (count : Nat) : List String :=
  (b.logs.drop (b.logs.length - count)).map (fun e => e.line)

/-- A sequence of `append` calls, each with its line and timestamp. -/
def LogBuffer.appendAll (b : LogBuffer) (items : List (String × Nat)) :
    LogBuffer :=
  items.foldl (fun acc it => acc.append it.1 it.2) b

/-- Structural invariant of a log buffer: the retained entries carry the
contiguous block of indices ending just before `currentIndex`, at most
`maxLines` entries are retained, and no index exceeds `currentIndex`. -/
def LogBuffer.Wf (b : LogBuffer) : Prop :=
  b.logs.map (fun e => e.index) =
    List.range' (b.currentIndex - b.logs.length) b.logs.length ∧
  b.logs.length ≤ b.maxLines ∧
  b.logs.length ≤ b.currentIndex

theorem LogBuffer.wf_new (C : Nat) : (LogBuffer.new C).Wf := by
  refine ⟨rfl, by simp [LogBuffer.new], by simp [LogBuffer.new]⟩

theorem LogBuffer.wf_append (b : LogBuffer) (line : String) (now : Nat)
    (h : b.Wf) : (b.append line now).Wf := by
  obtain ⟨hidx, hlen, hle⟩ := h
  have hmap : (b.logs ++ [(⟨line, now, b.currentIndex⟩ : LogEntry)]).map
      (fun e => e.index) =
      List.range' (b.currentIndex - b.logs.length) (b.logs.length + 1) := by
    rw [List.range'_concat, List.map_append, hidx]
    congr 1
    simp only [List.map_cons, List.map_nil]
    congr 1
    omega
  unfold LogBuffer.Wf
  rw [LogBuffer.append_logs, LogBuffer.append_currentIndex,
    LogBuffer.append_maxLines]
  by_cases hcap :
      b.maxLines < (b.logs ++ [(⟨line, now, b.currentIndex⟩ : LogEntry)]).length
  · rw [if_pos hcap]
    have hlen2 :
        ((b.logs ++ [(⟨line, now, b.currentIndex⟩ : LogEntry)]).drop 1).length
          = b.logs.length := by
      simp
    have hcap2 : b.maxLines < b.logs.length + 1 := by
      simpa using hcap
    refine ⟨?_, ?_, ?_⟩
    · rw [hlen2, List.map_drop, hmap, List.range'_succ, List.drop_one,
        List.tail_cons]
      congr 1
      omega
    · rw [hlen2]; omega
    · rw [hlen2]; omega
  · rw [if_neg hcap]
    have hlen2 : (b.logs ++ [(⟨line, now, b.currentIndex⟩ : LogEntry)]).length
        = b.logs.length + 1 := by
      simp
    have hcap2 : ¬ b.maxLines < b.logs.length + 1 := by
      simpa using hcap
    refine ⟨?_, ?_, ?_⟩
    · rw [hlen2, hmap]
      congr 1
      omega
    · rw [hlen2]; omega
    · rw [hlen2]; omega

theorem LogBuffer.maxLines_appendAll (b : LogBuffer)
    (items : List (String × Nat)) :
    (b.appendAll items).maxLines = b.maxLines := by
  induction items generalizing b with
  | nil => rfl
  | cons it rest ih =>
    have hstep : b.appendAll (it :: rest) = (b.append it.1 it.2).appendAll rest :=
      rfl
    rw [hstep, ih]
    rfl

theorem LogBuffer.wf_appendAll (b : LogBuffer) (items : List (String × Nat))
    (h : b.Wf) : (b.appendAll items).Wf := by
  induction items generalizing b with
  | nil => exact h
  | cons it rest ih =>
    have hstep : b.appendAll (it :: rest) = (b.append it.1 it.2).appendAll rest :=
      rfl
    rw [hstep]
    exact ih _ (b.wf_append it.1 it.2 h)

/-- C2: every append sequence on a buffer of capacity `C` keeps
`getTotalLines ≤ C`; the retained indices form the contiguous strictly
increasing block ending just before `currentIndex`; appending to a full
buffer drops exactly the oldest entry and renumbers nothing; and the
concrete scenario — appending `"a","b","c"` at capacity 2 — retains lines
`"b","c"` with indices `[1,2]`, `getTotalLines = 2`, `getNextIndex = 3`. -/
theorem logBuffer_bounded_contiguous_eviction (C : Nat)
    (items : List (String × Nat)) :
    ((LogBuffer.new C).appendAll items).getTotalLines ≤ C ∧
    ((LogBuffer.new C).appendAll items).logs.map (fun e => e.index) =
      List.range'
        (((LogBuffer.new C).appendAll items).currentIndex -
          ((LogBuffer.new C).appendAll items).logs.length)
        ((LogBuffer.new C).appendAll items).logs.length ∧
    (∀ line now, 0 < C →
      ((LogBuffer.new C).appendAll items).logs.length = C →
      (((LogBuffer.new C).appendAll items).append line now).logs =
        ((LogBuffer.new C).appendAll items).logs.drop 1 ++
          [(⟨line, now, ((LogBuffer.new C).appendAll items).currentIndex⟩ :
            LogEntry)]) ∧
    ((LogBuffer.new 2).appendAll
      [("a", 0), ("b", 1), ("c", 2)]).getTotalLines = 2 ∧
    (((LogBuffer.new 2).appendAll
      [("a", 0), ("b", 1), ("c", 2)]).getLogs none 100).map (fun e => e.line) =
      ["b", "c"] ∧
    (((LogBuffer.new 2).appendAll
      [("a", 0), ("b", 1), ("c", 2)]).getLogs none 100).map (fun e => e.index) =
      [1, 2] ∧
    ((LogBuffer.new 2).appendAll
      [("a", 0), ("b", 1), ("c", 2)]).getNextIndex = 3 := by
  have hwf := (LogBuffer.new C).wf_appendAll items (LogBuffer.wf_new C)
  have hmax := (LogBuffer.new C).maxLines_appendAll items
  refine ⟨?_, hwf.1, ?_, by decide, by decide, by decide, by decide⟩
  · have := hwf.2.1
    rw [hmax] at this
    exact this
  · intro line now hC hfull
    rw [LogBuffer.append_logs]
    have hcond : ((LogBuffer.new C).appendAll items).maxLines <
        (((LogBuffer.new C).appendAll items).logs ++
          [(⟨line, now, ((LogBuffer.new C).appendAll items).currentIndex⟩ :
            LogEntry)]).length := by
      have hC2 : (LogBuffer.new C).maxLines = C := rfl
      rw [hmax, hC2]
      simp only [List.length_append, List.length_cons, List.length_nil, hfull]
      omega
    rw [if_pos hcond]
    exact List.drop_append_of_le_length (by omega)

/-- Witness for C2: concrete instantiation at capacity 2; the two
hypotheses of the eviction conjunct are discharged at `C = 2` with a full
buffer. -/
theorem logBuffer_bounded_contiguous_eviction_witness :
    (((LogBuffer.new 2).appendAll [("a", 0), ("b", 1)]).append "c" 2).logs =
      ((LogBuffer.new 2).appendAll [("a", 0), ("b", 1)]).logs.drop 1 ++
        [(⟨"c", 2,
          ((LogBuffer.new 2).appendAll [("a", 0), ("b", 1)]).currentIndex⟩ :
          LogEntry)] :=
  (logBuffer_bounded_contiguous_eviction 2 [("a", 0), ("b", 1)]).2.2.1 "c" 2
    (by decide) (by decide)

/-! ## Run process manager (src/flutter/process.ts) -/

/-- Handle returned by `spawnStreaming` (src/utils/exec.ts).  Only the
`pid` datum is kept; the stdin channel and kill capability are modelled by
the explicit action lists the manager operations return. -/
structure SpawnedProcess where
  pid : Option Nat
deriving Repr, DecidableEq

/-- `FlutterProcessStatus` from src/flutter/types.ts. -/
inductive FlutterProcessStatus
  | starting
  | running
  | hotReloading
  | stopped
  | failed
deriving Repr, DecidableEq

/-- `FlutterProcess` from src/flutter/types.ts (`Date` becomes `Nat`). -/
structure FlutterProcess where
  pid : Nat
  status : FlutterProcessStatus
  startedAt : Nat
  stoppedAt : Option Nat
  exitCode : Option Int
deriving Repr, DecidableEq

/-- State of `class FlutterProcessManager`.  Subscriber callbacks are kept
as opaque identifiers: their invocation has no effect on the manager's own
state. -/
structure FlutterProcessManager where
  process : Option SpawnedProcess
  flutterProcess : Option FlutterProcess
  logBuffer : LogBuffer
  logSubscribers : List Nat
deriving Repr, DecidableEq

/-- `new FlutterProcessManager(maxLogLines = 1000)`. -/
def FlutterProcessManager.new (maxLogLines : Nat) : FlutterProcessManager :=
  ⟨none, none, LogBuffer.new maxLogLines, []⟩

/-- Bytes written to the child process's stdin by a control operation. -/
inductive StdinAct
  | write (bytes : String)
  | closeInput
deriving Repr, DecidableEq

/-- `detectStatusChanges`: a line containing a reload marker flips the
status to hot-reloading.  The 1-second `setTimeout` auto-revert to
`running` is real-time behaviour and is outside this embedding. -/
def FlutterProcessManager.detectStatusChanges (m : FlutterProcessManager)
    (line : String) : FlutterProcessManager :=
  match m.flutterProcess with
  | none => m
  | some fp =>
    if jsIncludes line "Hot reload" || jsIncludes line "Reloaded" then
      { m with
        flutterProcess := some { fp with status := FlutterProcessStatus.hotReloading } }
    else m

/-- One iteration of the `for` loop in `handleOutput`: a non-blank line is
appended to the log buffer, fanned out to subscribers (external effect),
and scanned for status markers; blank or whitespace-only lines are
skipped. -/
def FlutterProcessManager.handleOutputLine (m : FlutterProcessManager)
    (line : String) (now : Nat) : FlutterProcessManager :=
  if jsTrim line ≠ "" then
    ({ m with logBuffer := m.logBuffer.append line now }).detectStatusChanges
      line
  else m

/-- `handleOutput(data)`: split the chunk on newlines and process each
line in order. -/
def FlutterProcessManager.handleOutput (m : FlutterProcessManager)
    (data : String) (now : Nat) : FlutterProcessManager :=
  (jsSplit data (Char.ofNat 10)).foldl
    (fun acc line => acc.handleOutputLine line now) m

/-- A sequence of output chunks delivered to `handleOutput`. -/
def FlutterProcessManager.handleOutputAll (m : FlutterProcessManager)
    (chunks : List (String × Nat)) : FlutterProcessManager :=
  chunks.foldl (fun acc c => acc.handleOutput c.1 c.2) m

/-- `handleExit(code, signal)`: record terminal status and release the
process handle. -/
def FlutterProcessManager.handleExit (m : FlutterProcessManager)
    (code : Option Int) (_signal : Option String) (now : Nat) :
    FlutterProcessManager :=
  match m.flutterProcess with
  | none => { m with flutterProcess := none, process := none }
  | some fp =>
    { m with
      flutterProcess := some { fp with
        status :=
          if code = some 0 then FlutterProcessStatus.stopped
          else FlutterProcessStatus.failed,
        stoppedAt := some now,
        exitCode := code },
      process := none }

/-- `stop()`: soft-fails with `false` when no process is attached;
otherwise writes the graceful-quit byte and closes stdin. -/
def FlutterProcessManager.stop (m : FlutterProcessManager) :
    Bool × List StdinAct :=
  match m.process with
  | none => (false, [])
  | some _ => (true, [StdinAct.write "q\n", StdinAct.closeInput])

/-- `hotReload()`. -/
def FlutterProcessManager.hotReload (m : FlutterProcessManager) :
    Bool × List StdinAct :=
  match m.process with
  | none => (false, [])
  | some _ => (true, [StdinAct.write "r\n"])

/-- `hotRestart()`. -/
def FlutterProcessManager.hotRestart (m : FlutterProcessManager) :
    Bool × List StdinAct :=
  match m.process with
  | none => (false, [])
  | some _ => (true, [StdinAct.write "R\n"])

/-- Result shape of `FlutterProcessManager.getLogs`. -/
structure FlutterLogsResult where
  logs : List LogEntry
  nextIndex : Nat
  totalLines : Nat
deriving Repr, DecidableEq

/-- `getLogs(fromIndex?, limit?)`; an absent `limit` falls through to the
log buffer's default of 100. -/
def FlutterProcessManager.getLogs (m : FlutterProcessManager)
    (fromIndex : Option Nat) (limit : Option Nat) : FlutterLogsResult :=
  ⟨m.logBuffer.getLogs fromIndex (limit.getD 100),
   m.logBuffer.getNextIndex, m.logBuffer.getTotalLines⟩

/-- All retained log lines are non-blank (not empty, not whitespace-only). -/
def LogBuffer.NonBlank (b : LogBuffer) : Prop :=
  ∀ e ∈ b.logs, jsTrim e.line ≠ ""

theorem LogBuffer.nonBlank_append (b : LogBuffer) (line : String) (now : Nat)
    (h : b.NonBlank) (hline : jsTrim line ≠ "") :
    (b.append line now).NonBlank := by
  intro e he
  rw [LogBuffer.append_logs] at he
  have he2 : e ∈ b.logs ++ [(⟨line, now, b.currentIndex⟩ : LogEntry)] := by
    by_cases hcap : b.maxLines <
        (b.logs ++ [(⟨line, now, b.currentIndex⟩ : LogEntry)]).length
    · rw [if_pos hcap] at he
      exact List.drop_subset 1 _ he
    · rw [if_neg hcap] at he
      exact he
  rcases List.mem_append.mp he2 with h1 | h1
  · exact h e h1
  · simp only [List.mem_singleton] at h1
    subst h1
    exact hline

theorem FlutterProcessManager.detectStatusChanges_logBuffer
    (m : FlutterProcessManager) (line : String) :
    (m.detectStatusChanges line).logBuffer = m.logBuffer := by
  cases h : m.flutterProcess with
  | none => simp [FlutterProcessManager.detectStatusChanges, h]
  | some fp =>
    simp only [FlutterProcessManager.detectStatusChanges, h]
    split
    · rfl
    · rfl

theorem FlutterProcessManager.nonBlank_handleOutputLine
    (m : FlutterProcessManager) (line : String) (now : Nat)
    (h : m.logBuffer.NonBlank) :
    (m.handleOutputLine line now).logBuffer.NonBlank := by
  unfold FlutterProcessManager.handleOutputLine
  by_cases hl : jsTrim line ≠ ""
  · rw [if_pos hl, FlutterProcessManager.detectStatusChanges_logBuffer]
    exact LogBuffer.nonBlank_append _ line now h hl
  · rw [if_neg hl]
    exact h

theorem FlutterProcessManager.nonBlank_handleOutput
    (m : FlutterProcessManager) (data : String) (now : Nat)
    (h : m.logBuffer.NonBlank) :
    (m.handleOutput data now).logBuffer.NonBlank := by
  unfold FlutterProcessManager.handleOutput
  generalize jsSplit data (Char.ofNat 10) = lines
  induction lines generalizing m with
  | nil => exact h
  | cons l rest ih =>
    exact ih _ (m.nonBlank_handleOutputLine l now h)

theorem FlutterProcessManager.nonBlank_handleOutputAll
    (m : FlutterProcessManager) (chunks : List (String × Nat))
    (h : m.logBuffer.NonBlank) :
    (m.handleOutputAll chunks).logBuffer.NonBlank := by
  induction chunks generalizing m with
  | nil => exact h
  | cons c rest ih =>
    exact ih _ (m.nonBlank_handleOutput c.1 c.2 h)

/-- C9 (implicit): output chunks are split on newlines and blank or
whitespace-only segments are dropped before `LogBuffer.append`, so after
any sequence of output chunks delivered to a fresh run-process manager,
every retained log entry — and hence every entry returned by `getLogs` —
has a non-blank line. -/
theorem processManager_logs_nonblank (maxLogLines : Nat)
    (chunks : List (String × Nat)) :
    (∀ e ∈ ((FlutterProcessManager.new maxLogLines).handleOutputAll
        chunks).logBuffer.logs, jsTrim e.line ≠ "") ∧
    (∀ fromIndex limit,
      ∀ e ∈ (((FlutterProcessManager.new maxLogLines).handleOutputAll
        chunks).getLogs fromIndex limit).logs, jsTrim e.line ≠ "") := by
  have hbase : (FlutterProcessManager.new maxLogLines).logBuffer.NonBlank := by
    intro e he
    cases he
  have hall := (FlutterProcessManager.new maxLogLines).nonBlank_handleOutputAll
    chunks hbase
  refine ⟨hall, ?_⟩
  intro fromIndex limit e he
  apply hall
  rcases fromIndex with _ | i
  · simp only [FlutterProcessManager.getLogs, LogBuffer.getLogs] at he
    exact List.mem_of_mem_take he
  · simp only [FlutterProcessManager.getLogs, LogBuffer.getLogs] at he
    exact List.mem_of_mem_filter (List.mem_of_mem_take he)

/-- Witness for C9: the chunk contains blank and whitespace-only segments;
the retained entry for the non-blank segment has a non-blank line. -/
theorem processManager_logs_nonblank_witness :
    jsTrim ((⟨"Launching lib/main.dart", 5, 0⟩ : LogEntry)).line ≠ "" :=
  (processManager_logs_nonblank 1000
      [("Launching lib/main.dart\n\n   \n", 5)]).1
    ⟨"Launching lib/main.dart", 5, 0⟩ (by decide)

/-- C7: `stop`, `hotReload` and `hotRestart` are total and return `false`
(writing nothing to stdin) whenever no process handle is attached; a fresh
manager has no handle, and `handleExit` always releases the handle, so all
three soft-fail both before `start` and after process exit. -/
theorem processManager_controls_soft_fail :
    (∀ m : FlutterProcessManager, m.process = none →
      m.stop = (false, []) ∧ m.hotReload = (false, []) ∧
        m.hotRestart = (false, [])) ∧
    (∀ maxLogLines, (FlutterProcessManager.new maxLogLines).process = none) ∧
    (∀ (m : FlutterProcessManager) code sig now,
      (m.handleExit code sig now).process = none) := by
  refine ⟨?_, fun _ => rfl, ?_⟩
  · intro m h
    refine ⟨?_, ?_, ?_⟩ <;>
      simp [FlutterProcessManager.stop, FlutterProcessManager.hotReload,
        FlutterProcessManager.hotRestart, h]
  · intro m code sig now
    unfold FlutterProcessManager.handleExit
    cases h2 : m.flutterProcess
    · rfl
    · rfl

/-- Witness for C7: a fresh manager soft-fails all three controls, and
after `handleExit` on a manager that had a live process, `stop` returns
`false` again. -/
theorem processManager_controls_soft_fail_witness :
    ((FlutterProcessManager.new 1000).stop = (false, []) ∧
      (FlutterProcessManager.new 1000).hotReload = (false, []) ∧
      (FlutterProcessManager.new 1000).hotRestart = (false, [])) ∧
    ((⟨some ⟨some 42⟩,
        some ⟨42, FlutterProcessStatus.running, 0, none, none⟩,
        LogBuffer.new 5, []⟩ : FlutterProcessManager).handleExit
      (some 0) none 7).stop = (false, []) :=
  ⟨processManager_controls_soft_fail.1 (FlutterProcessManager.new 1000)
      (processManager_controls_soft_fail.2.1 1000),
   (processManager_controls_soft_fail.1 _
      (processManager_controls_soft_fail.2.2
        ⟨some ⟨some 42⟩,
          some ⟨42, FlutterProcessStatus.running, 0, none, none⟩,
          LogBuffer.new 5, []⟩ (some 0) none 7)).1⟩

/-! ## Test process manager (src/flutter/test-manager.ts) -/

/-- Protocol result kind, `'success' | 'failure' | 'error'`
(src/flutter/test-types.ts). -/
inductive TestOutcome
  | success
  | failure
  | error
deriving Repr, DecidableEq

/-- `TestResult` from src/flutter/test-types.ts. -/
structure TestResult where
  testId : Nat
  testName : String
  result : TestOutcome
  skipped : Bool
  hidden : Bool
  output : List String
deriving Repr, DecidableEq

/-- `FlutterTestState` from src/flutter/test-types.ts; the two `Map`s are
insertion-ordered association lists. -/
structure FlutterTestState where
  reference : Nat
  startedAt : Nat
  completedAt : Option Nat
  tests : List (Nat × TestResult)
  testNames : List (Nat × String)
  totalTests : Nat
  complete : Bool
  success : Option Bool
  outputBuffer : List String
deriving Repr, DecidableEq

/-- The `test` payload of a `testStart` event: id, name and the
`metadata.skip` flag consumed by `processEvent`. -/
structure TestStartInfo where
  id : Nat
  name : String
  metadataSkip : Bool
deriving Repr, DecidableEq

/-- The decoded JSON events of the test reporter protocol, after the
structural parse in `handleOutput`; `other` covers every unrecognized
`type` (group, suite, ...). -/
inductive TestEvent
  | start
  | allSuites (count : Nat)
  | testStart (test : TestStartInfo)
  | testDone (testID : Nat) (result : TestOutcome) (skipped : Bool)
      (hidden : Bool)
  | error (testID : Nat) (err : String) (stackTrace : Option String)
      (isFailure : Bool)
  | print (testID : Nat) (message : String)
  | done (success : Bool)
  | other
deriving Repr, DecidableEq

/-- `processEvent`, acting on one run's state.  In the `testStart` case
the TS first updates `testNames` and then creates the `TestResult` entry
only when the id is absent from `tests`; the two branches below spell out
both orders of that same update.  `now` stands for `new Date()` in the
`done` case. -/
def FlutterTestState.processEvent (state : FlutterTestState)
    (event : TestEvent) (now : Nat) : FlutterTestState :=
  match event with
  | TestEvent.start => state
  | TestEvent.allSuites count => { state with totalTests := count }
  | TestEvent.testStart t =>
    if mapHas state.tests t.id then
      { state with testNames := mapSet state.testNames t.id t.name }
    else
      { state with
        testNames := mapSet state.testNames t.id t.name,
        tests := mapSet state.tests t.id
          ⟨t.id, t.name, TestOutcome.success, false, t.metadataSkip, []⟩ }
  | TestEvent.testDone testID result skipped hidden =>
    match mapGet state.tests testID with
    | none => state
    | some t =>
      { state with tests := (mapSet state.tests testID
          { t with result := result, skipped := skipped, hidden := hidden }) }
  | TestEvent.error testID err stackTrace isFailure =>
    match mapGet state.tests testID with
    | none => state
    | some t =>
      { state with tests := (mapSet state.tests testID
          { t with
            result :=
              if isFailure then TestOutcome.failure else TestOutcome.error,
            output := t.output ++ [err] ++
              (match stackTrace with
              | some st => [st]
              | none => []) }) }
  | TestEvent.print testID message =>
    match mapGet state.tests testID with
    | none => state
    | some t =>
      { state with tests := (mapSet state.tests testID
          { t with output := t.output ++ [message] }) }
  | TestEvent.done success =>
    { state with
      complete := true,
      success := some success,
      completedAt := some now }
  | TestEvent.other => state

/-- State of `class FlutterTestManager` (fields `process`, `testStates`,
`nextReference`). -/
structure FlutterTestManager where
  process : Option SpawnedProcess
  testStates : List (Nat × FlutterTestState)
  nextReference : Nat
deriving Repr, DecidableEq

/-- A fresh test manager (`nextReference` starts at 1). -/
def FlutterTestManager.new : FlutterTestManager :=
  ⟨none, [], 1⟩

/-- `start(options)`: allocate the next reference, create fresh run state,
attach the spawned process handle, return the reference.  The command-line
construction and spawn itself are external. -/
def FlutterTestManager.start (m : FlutterTestManager) (proc : SpawnedProcess)
    (now : Nat) : FlutterTestManager × Nat :=
  (⟨some proc,
    mapSet m.testStates m.nextReference
      ⟨m.nextReference, now, none, [], [], 0, false, none, []⟩,
    m.nextReference + 1⟩,
   m.nextReference)

/-- `processEvent` at the manager level: look the run state up by
reference, ignore events for unknown references. -/
def FlutterTestManager.processEvent (m : FlutterTestManager)
    (reference : Nat) (event : TestEvent) (now : Nat) : FlutterTestManager :=
  match mapGet m.testStates reference with
  | none => m
  | some state =>
    { m with testStates := (mapSet m.testStates reference
        (state.processEvent event now)) }

/-- `handleExit(reference, code, signal)`: if the run is not yet complete,
finalize it with `success = (code == 0)`; either way release the process
handle.  A `done` event that already completed the run leaves the run state
untouched. -/
def FlutterTestManager.handleExit (m : FlutterTestManager) (reference : Nat)
    (code : Option Int) (_signal : Option String) (now : Nat) :
    FlutterTestManager :=
  match mapGet m.testStates reference with
  | none => m
  | some state =>
    if state.complete then
      { m with process := none }
    else
      { m with
        testStates := (mapSet m.testStates reference
          { state with
            complete := true,
            completedAt := some now,
            success := some (code == some 0) }),
        process := none }

/-- `FlutterTestProgress` from src/flutter/test-types.ts; the optional
fields are populated only when `showAllTestNames` is set. -/
structure FlutterTestProgress where
  reference : Nat
  testsComplete : Nat
  testsTotal : Nat
  passes : Nat
  fails : Nat
  complete : Bool
  passingTests : Option (List String)
  failingTests : Option (List String)
  totalPassingTests : Option Nat
  totalFailingTests : Option Nat
  hasMorePassing : Option Bool
  hasMoreFailing : Option Bool
deriving Repr, DecidableEq

/-- `getProgress(reference, showAllTestNames = false, offset = 0,
limit = 100)`: `null` for an unknown reference; counts are computed over
the visible (non-hidden) tests only. -/
def FlutterTestManager.getProgress (m : FlutterTestManager) (reference : Nat)
    (showAllTestNames : Bool) (offset limit : Nat) :
    Option FlutterTestProgress :=
  match mapGet m.testStates reference with
  | none => none
  | some state =>
    some (
      if showAllTestNames then
        ⟨reference,
         (((state.tests.map (fun q => q.2)).filter
            (fun t => !t.hidden)).filter (fun t => !t.skipped)).length,
         ((state.tests.map (fun q => q.2)).filter (fun t => !t.hidden)).length,
         (((state.tests.map (fun q => q.2)).filter (fun t => !t.hidden)).filter
            (fun t => t.result == TestOutcome.success && !t.skipped)).length,
         (((state.tests.map (fun q => q.2)).filter (fun t => !t.hidden)).filter
            (fun t => (t.result == TestOutcome.failure ||
              t.result == TestOutcome.error) && !t.skipped)).length,
         state.complete,
         some ((((((state.tests.map (fun q => q.2)).filter
            (fun t => !t.hidden)).filter
            (fun t => t.result == TestOutcome.success && !t.skipped)).map
            (fun t => t.testName)).drop offset).take limit),
         some ((((((state.tests.map (fun q => q.2)).filter
            (fun t => !t.hidden)).filter
            (fun t => (t.result == TestOutcome.failure ||
              t.result == TestOutcome.error) && !t.skipped)).map
            (fun t => t.testName)).drop offset).take limit),
         some ((((state.tests.map (fun q => q.2)).filter
            (fun t => !t.hidden)).filter
            (fun t => t.result == TestOutcome.success && !t.skipped)).length),
         some ((((state.tests.map (fun q => q.2)).filter
            (fun t => !t.hidden)).filter
            (fun t => (t.result == TestOutcome.failure ||
              t.result == TestOutcome.error) && !t.skipped)).length),
         some (decide (offset + limit <
           ((((state.tests.map (fun q => q.2)).filter
              (fun t => !t.hidden)).filter
              (fun t => t.result == TestOutcome.success && !t.skipped)).length))),
         some (decide (offset + limit <
           ((((state.tests.map (fun q => q.2)).filter
              (fun t => !t.hidden)).filter
              (fun t => (t.result == TestOutcome.failure ||
                t.result == TestOutcome.error) && !t.skipped)).length)))⟩
      else
        ⟨reference,
         (((state.tests.map (fun q => q.2)).filter
            (fun t => !t.hidden)).filter (fun t => !t.skipped)).length,
         ((state.tests.map (fun q => q.2)).filter (fun t => !t.hidden)).length,
         (((state.tests.map (fun q => q.2)).filter (fun t => !t.hidden)).filter
            (fun t => t.result == TestOutcome.success && !t.skipped)).length,
         (((state.tests.map (fun q => q.2)).filter (fun t => !t.hidden)).filter
            (fun t => (t.result == TestOutcome.failure ||
              t.result == TestOutcome.error) && !t.skipped)).length,
         state.complete,
         none, none, none, none, none, none⟩)

/-- `FlutterTestLog` from src/flutter/test-types.ts. -/
structure FlutterTestLog where
  testName : String
  output : String
deriving Repr, DecidableEq

/-- `getLogs(reference, showAll = false, offset = 0, limit = 100)`:
failing/erroring visible tests by default, all visible tests with
`showAll`; output fragments are joined with newlines. -/
def FlutterTestManager.getLogs (m : FlutterTestManager) (reference : Nat)
    (showAll : Bool) (offset limit : Nat) : List FlutterTestLog :=
  match mapGet m.testStates reference with
  | none => []
  | some state =>
    (((if showAll then
        (state.tests.map (fun q => q.2)).filter (fun t => !t.hidden)
      else
        ((state.tests.map (fun q => q.2)).filter (fun t => !t.hidden)).filter
          (fun t => t.result == TestOutcome.failure ||
            t.result == TestOutcome.error)).map
      (fun t => (⟨t.testName, String.intercalate "\n" t.output⟩ :
        FlutterTestLog))).drop offset).take limit

/-- Kill signals sent by `cleanup` to a still-attached process handle. -/
inductive CleanupAct
  | kill (signal : String)
deriving Repr, DecidableEq

/-- `cleanup(reference?)`: with a reference, delete that run's state; with
none, clear all run state.  In both cases, if a process handle is still
attached it is sent SIGTERM and released (the kill block in the TS is
outside the reference branch). -/
def FlutterTestManager.cleanup (m : FlutterTestManager)
    (reference : Option Nat) : FlutterTestManager × List CleanupAct :=
  match reference with
  | some r =>
    match m.process with
    | some _ =>
      (⟨none, mapDelete m.testStates r, m.nextReference⟩,
       [CleanupAct.kill "SIGTERM"])
    | none => (⟨none, mapDelete m.testStates r, m.nextReference⟩, [])
  | none =>
    match m.process with
    | some _ => (⟨none, [], m.nextReference⟩, [CleanupAct.kill "SIGTERM"])
    | none => (⟨none, [], m.nextReference⟩, [])

/-- `getAllReferences()`. -/
def FlutterTestManager.getAllReferences (m : FlutterTestManager) : List Nat :=
  m.testStates.map (fun q => q.1)

/-! ## Association-list lemmas for the JS `Map` embedding -/

theorem find?_cons_false {α : Type} (a : α) (t : List α) (p : α → Bool)
    (h : p a = false) : (a :: t).find? p = t.find? p := by
  rw [List.find?_cons_of_neg]
  simp [h]

theorem find?_append_right {α : Type} (l1 l2 : List α) (p : α → Bool)
    (h : l1.find? p = none) : (l1 ++ l2).find? p = l2.find? p := by
  induction l1 with
  | nil => rfl
  | cons a t ih =>
    have hpa : p a = false := by
      by_contra hpa
      rw [List.find?_cons_of_pos _ (by simpa using hpa)] at h
      cases h
    have ht : t.find? p = none := by
      rw [find?_cons_false a t p hpa] at h
      exact h
    rw [List.cons_append, find?_cons_false _ _ p hpa]
    exact ih ht

theorem find?_replace {κ α : Type} [BEq κ] [LawfulBEq κ]
    (l : List (κ × α)) (k : κ) (v : α) (h : mapHas l k = true) :
    (l.map (fun p => if p.1 == k then (k, v) else p)).find?
      (fun p => p.1 == k) = some (k, v) := by
  induction l with
  | nil => simp [mapHas] at h
  | cons p t ih =>
    rw [List.map_cons]
    by_cases hp : (p.1 == k) = true
    · rw [if_pos hp]
      rw [List.find?_cons_of_pos _ (by simp)]
    · rw [if_neg hp]
      have ht : mapHas t k = true := by
        unfold mapHas at h ⊢
        simp only [List.any_cons, Bool.or_eq_true] at h
        rcases h with h | h
        · exact absurd h hp
        · exact h
      rw [find?_cons_false _ _ _ (by simpa using hp)]
      exact ih ht

theorem mapGet_mapSet_self {κ α : Type} [BEq κ] [LawfulBEq κ]
    (l : List (κ × α)) (k : κ) (v : α) :
    mapGet (mapSet l k v) k = some v := by
  unfold mapSet
  by_cases h : mapHas l k = true
  · rw [if_pos h]
    unfold mapGet
    rw [find?_replace l k v h]
    rfl
  · rw [if_neg h]
    unfold mapGet
    have hnone : l.find? (fun p => p.1 == k) = none := by
      rw [List.find?_eq_none]
      intro p hp hpk
      apply h
      unfold mapHas
      rw [List.any_eq_true]
      exact ⟨p, hp, hpk⟩
    rw [find?_append_right _ _ _ hnone]
    rw [List.find?_cons_of_pos _ (by simp)]
    rfl

theorem mapGet_mapDelete_ne {κ α : Type} [BEq κ] [LawfulBEq κ]
    (l : List (κ × α)) (k k2 : κ) (h : (k2 == k) = false) :
    mapGet (mapDelete l k) k2 = mapGet l k2 := by
  induction l with
  | nil => rfl
  | cons p t ih =>
    unfold mapDelete mapGet at ih ⊢
    rw [List.filter_cons]
    by_cases hp : (p.1 == k) = true
    · have hk : p.1 = k := by
        exact eq_of_beq hp
      have hp2 : (p.1 == k2) = false := by
        rw [beq_eq_false_iff_ne] at h ⊢
        rw [hk]
        exact fun hkk => h hkk.symm
      simp only [hp, Bool.not_true, Bool.false_eq_true, if_false]
      rw [ih, find?_cons_false p t (fun q => q.1 == k2) hp2]
    · have hpb : (!(p.1 == k)) = true := by
        simp [hp]
      simp only [hpb, if_true]
      by_cases hp2 : (p.1 == k2) = true
      · simp [List.find?, hp2]
      · rw [find?_cons_false p (List.filter (fun q => !(q.1 == k)) t)
            (fun q => q.1 == k2) (by simpa using hp2),
          find?_cons_false p t (fun q => q.1 == k2) (by simpa using hp2)]
        exact ih

/-- C10 (implicit): a `testStart` event whose test id is already present
in the run's `tests` map leaves that map — and with it every previously
recorded result, flag and output — unchanged; only the id-to-name map is
updated.  Processing a duplicate `testStart` is therefore idempotent on
`tests`. -/
theorem testStart_duplicate_preserves_tests (state : FlutterTestState)
    (t : TestStartInfo) (now : Nat)
    (hhas : mapHas state.tests t.id = true) :
    (state.processEvent (TestEvent.testStart t) now).tests = state.tests ∧
    (state.processEvent (TestEvent.testStart t) now).testNames =
      mapSet state.testNames t.id t.name ∧
    (state.processEvent (TestEvent.testStart t) now).complete =
      state.complete ∧
    (state.processEvent (TestEvent.testStart t) now).success =
      state.success ∧
    (state.processEvent (TestEvent.testStart t) now).outputBuffer =
      state.outputBuffer := by
  simp only [FlutterTestState.processEvent]
  rw [if_pos hhas]
  exact ⟨rfl, rfl, rfl, rfl, rfl⟩

/-- Witness for C10: duplicate `testStart` for id 1 on a state that
already recorded a failure for id 1. -/
theorem testStart_duplicate_preserves_tests_witness :
    ((⟨1, 0, none, [(1, ⟨1, "t1", TestOutcome.failure, false, false,
        ["boom"]⟩)], [(1, "t1")], 0, false, none, []⟩ :
      FlutterTestState).processEvent
      (TestEvent.testStart ⟨1, "t1 renamed", false⟩) 9).tests =
      [(1, ⟨1, "t1", TestOutcome.failure, false, false, ["boom"]⟩)] :=
  (testStart_duplicate_preserves_tests
    ⟨1, 0, none, [(1, ⟨1, "t1", TestOutcome.failure, false, false,
      ["boom"]⟩)], [(1, "t1")], 0, false, none, []⟩
    ⟨1, "t1 renamed", false⟩ 9 (by decide)).1

/-- C5: if the test process exits before a `done` event, `handleExit`
finalizes the run with `complete = true`, `completedAt` set, and
`success = (exit code == 0)`; if the run was already complete, exit leaves
the run state untouched (no recorded result is overwritten).  In both
cases the process handle is released. -/
theorem testManager_exit_finalizes (m : FlutterTestManager) (reference : Nat)
    (code : Option Int) (sig : Option String) (now : Nat)
    (state : FlutterTestState)
    (hs : mapGet m.testStates reference = some state) :
    (state.complete = false →
      mapGet (m.handleExit reference code sig now).testStates reference =
        some { state with
          complete := true,
          completedAt := some now,
          success := some (code == some 0) } ∧
      (m.handleExit reference code sig now).process = none) ∧
    (state.complete = true →
      (m.handleExit reference code sig now).testStates = m.testStates ∧
      (m.handleExit reference code sig now).process = none) := by
  have hred : m.handleExit reference code sig now =
      if state.complete then { m with process := none }
      else
        { m with
          testStates := (mapSet m.testStates reference
            { state with
              complete := true,
              completedAt := some now,
              success := some (code == some 0) }),
          process := none } := by
    unfold FlutterTestManager.handleExit
    rw [hs]
  constructor
  · intro hc
    rw [hred, hc, if_neg (by simp)]
    exact ⟨mapGet_mapSet_self _ _ _, rfl⟩
  · intro hc
    rw [hred, hc, if_pos rfl]
    exact ⟨rfl, rfl⟩

/-- Witness for C5: a crashed process (exit code 1) finalizes an
incomplete run with `success = some false`; on an already-complete run the
state is untouched. -/
theorem testManager_exit_finalizes_witness :
    mapGet ((⟨some ⟨some 7⟩,
      [(1, ⟨1, 0, none, [], [], 0, false, none, []⟩)], 2⟩ :
        FlutterTestManager).handleExit 1 (some 1) none 8).testStates 1 =
      some ⟨1, 0, some 8, [], [], 0, true, some false, []⟩ :=
  ((testManager_exit_finalizes
    ⟨some ⟨some 7⟩, [(1, ⟨1, 0, none, [], [], 0, false, none, []⟩)], 2⟩
    1 (some 1) none 8 ⟨1, 0, none, [], [], 0, false, none, []⟩
    (by decide)).1 (by decide)).1

theorem mapGet_mapDelete_self {κ α : Type} [BEq κ] (l : List (κ × α))
    (k : κ) : mapGet (mapDelete l k) k = none := by
  unfold mapGet mapDelete
  have hnone : (l.filter (fun p => !(p.1 == k))).find?
      (fun p => p.1 == k) = none := by
    rw [List.find?_eq_none]
    intro p hp
    have hmem := List.of_mem_filter hp
    simp only [Bool.not_eq_true'] at hmem
    simp [hmem]
  rw [hnone]
  rfl

/-- Counterexample for C4: calling `cleanup` WITH a reference on a manager
whose process handle is still attached does send SIGTERM and release the
handle — the kill block in the TS sits outside the reference branch — so
force-termination is not reserved to the no-reference form, and an
attached handle does not survive a reference-scoped cleanup. -/
theorem testManager_cleanup_with_reference_kills :
    ((⟨some ⟨some 7⟩,
      [(1, ⟨1, 0, none, [], [], 0, false, none, []⟩),
       (2, ⟨2, 0, none, [], [], 0, false, none, []⟩)], 3⟩ :
        FlutterTestManager).cleanup (some 1)).2 =
      [CleanupAct.kill "SIGTERM"] ∧
    ((⟨some ⟨some 7⟩,
      [(1, ⟨1, 0, none, [], [], 0, false, none, []⟩),
       (2, ⟨2, 0, none, [], [], 0, false, none, []⟩)], 3⟩ :
        FlutterTestManager).cleanup (some 1)).1.process = none ∧
    (⟨some ⟨some 7⟩,
      [(1, ⟨1, 0, none, [], [], 0, false, none, []⟩),
       (2, ⟨2, 0, none, [], [], 0, false, none, []⟩)], 3⟩ :
        FlutterTestManager).process ≠ none := by
  decide

/-- C4 (amended): `cleanup` with a reference discards exactly that
reference's run state and leaves every other reference's state unchanged;
`cleanup` without a reference discards all run state; and in both forms a
still-attached process handle is force-terminated with SIGTERM and
released. -/
theorem testManager_cleanup_scoped (m : FlutterTestManager) (r : Nat) :
    (m.cleanup (some r)).1.testStates = mapDelete m.testStates r ∧
    mapGet (m.cleanup (some r)).1.testStates r = none ∧
    (∀ r2, (r2 == r) = false →
      mapGet (m.cleanup (some r)).1.testStates r2 =
        mapGet m.testStates r2) ∧
    (m.cleanup none).1.testStates = [] ∧
    (∀ ref : Option Nat,
      (m.cleanup ref).2 =
        (match m.process with
         | some _ => [CleanupAct.kill "SIGTERM"]
         | none => []) ∧
      (m.cleanup ref).1.process = none) := by
  have hstates : (m.cleanup (some r)).1.testStates = mapDelete m.testStates r := by
    cases hp : m.process <;> simp [FlutterTestManager.cleanup, hp]
  refine ⟨hstates, ?_, ?_, ?_, ?_⟩
  · rw [hstates]
    exact mapGet_mapDelete_self _ _
  · intro r2 hr2
    rw [hstates]
    exact mapGet_mapDelete_ne _ _ _ hr2
  · cases hp : m.process <;> simp [FlutterTestManager.cleanup, hp]
  · intro ref
    cases hp : m.process <;> cases ref <;>
      simp [FlutterTestManager.cleanup, hp]

/-- Witness for C4 (amended): reference-scoped cleanup of reference 1
leaves reference 2's state readable and unchanged. -/
theorem testManager_cleanup_scoped_witness :
    mapGet ((⟨some ⟨some 7⟩,
      [(1, ⟨1, 0, none, [], [], 0, false, none, []⟩),
       (2, ⟨2, 4, none, [], [], 0, true, some true, []⟩)], 3⟩ :
        FlutterTestManager).cleanup (some 1)).1.testStates 2 =
      mapGet (⟨some ⟨some 7⟩,
        [(1, ⟨1, 0, none, [], [], 0, false, none, []⟩),
         (2, ⟨2, 4, none, [], [], 0, true, some true, []⟩)], 3⟩ :
          FlutterTestManager).testStates 2 :=
  (testManager_cleanup_scoped
    ⟨some ⟨some 7⟩,
      [(1, ⟨1, 0, none, [], [], 0, false, none, []⟩),
       (2, ⟨2, 4, none, [], [], 0, true, some true, []⟩)], 3⟩ 1).2.2.1 2
    (by decide)

/-! ## Counting lemmas for `getProgress` -/

theorem length_filter_filter_map_snd {κ β : Type} (l : List (κ × β))
    (r q : β → Bool) :
    (((l.map (fun p => p.2)).filter r).filter q).length =
      l.countP (fun p => r p.2 && q p.2) := by
  induction l with
  | nil => rfl
  | cons a t ih =>
    rw [List.map_cons, List.filter_cons]
    by_cases hr : r a.2 = true
    · rw [if_pos hr, List.filter_cons]
      by_cases hq : q a.2 = true
      · rw [if_pos hq, List.length_cons, ih, List.countP_cons]
        simp [hr, hq]
      · rw [if_neg hq, ih, List.countP_cons]
        simp [hq]
    · rw [if_neg hr, ih, List.countP_cons]
      simp [hr]

theorem length_filter_map_snd {κ β : Type} (l : List (κ × β))
    (r : β → Bool) :
    ((l.map (fun p => p.2)).filter r).length =
      l.countP (fun p => r p.2) := by
  induction l with
  | nil => rfl
  | cons a t ih =>
    rw [List.map_cons, List.filter_cons]
    by_cases hr : r a.2 = true
    · rw [if_pos hr, List.length_cons, ih, List.countP_cons]
      simp [hr]
    · rw [if_neg hr, ih, List.countP_cons]
      simp [hr]

theorem length_filter_add_length_filter_le {α : Type} (l : List α)
    (p q : α → Bool) (hdisj : ∀ a, ¬(p a = true ∧ q a = true)) :
    (l.filter p).length + (l.filter q).length ≤ l.length := by
  induction l with
  | nil => simp
  | cons a t ih =>
    rw [List.filter_cons, List.filter_cons]
    by_cases hp : p a = true
    · have hq : ¬ q a = true := fun hq => hdisj a ⟨hp, hq⟩
      rw [if_pos hp, if_neg hq]
      simp only [List.length_cons]
      omega
    · rw [if_neg hp]
      by_cases hq : q a = true
      · rw [if_pos hq]
        simp only [List.length_cons]
        omega
      · rw [if_neg hq]
        simp only [List.length_cons]
        omega

/-- C6: for a known reference, `getProgress` computes `passes` over the
non-hidden, non-skipped tests with result success, `fails` over the
non-hidden, non-skipped tests with result failure or error, `testsTotal`
over all non-hidden tests — hidden tests count nowhere — and
`passes + fails ≤ testsTotal`. -/
theorem testManager_getProgress_counts (m : FlutterTestManager)
    (reference : Nat) (showAllTestNames : Bool) (offset limit : Nat)
    (state : FlutterTestState) (p : FlutterTestProgress)
    (hs : mapGet m.testStates reference = some state)
    (h : m.getProgress reference showAllTestNames offset limit = some p) :
    p.passes = state.tests.countP (fun q =>
      !q.2.hidden && (q.2.result == TestOutcome.success && !q.2.skipped)) ∧
    p.fails = state.tests.countP (fun q =>
      !q.2.hidden && ((q.2.result == TestOutcome.failure ||
        q.2.result == TestOutcome.error) && !q.2.skipped)) ∧
    p.testsTotal = state.tests.countP (fun q => !q.2.hidden) ∧
    p.passes + p.fails ≤ p.testsTotal := by
  have hdisj : ∀ t : TestResult,
      ¬((t.result == TestOutcome.success && !t.skipped) = true ∧
        ((t.result == TestOutcome.failure ||
          t.result == TestOutcome.error) && !t.skipped) = true) := by
    rintro t ⟨h1, h2⟩
    simp only [Bool.and_eq_true, beq_iff_eq, Bool.or_eq_true] at h1 h2
    rcases h2.1 with h2a | h2a <;> rw [h1.1] at h2a <;> cases h2a
  unfold FlutterTestManager.getProgress at h
  rw [hs] at h
  have hp2 := Option.some.inj h
  cases showAllTestNames with
  | false =>
    rw [if_neg (by decide)] at hp2
    subst hp2
    refine ⟨length_filter_filter_map_snd _ _ _,
      length_filter_filter_map_snd _ _ _, length_filter_map_snd _ _, ?_⟩
    exact length_filter_add_length_filter_le
      ((state.tests.map (fun q => q.2)).filter (fun t => !t.hidden)) _ _ hdisj
  | true =>
    rw [if_pos (by decide)] at hp2
    subst hp2
    refine ⟨length_filter_filter_map_snd _ _ _,
      length_filter_filter_map_snd _ _ _, length_filter_map_snd _ _, ?_⟩
    exact length_filter_add_length_filter_le
      ((state.tests.map (fun q => q.2)).filter (fun t => !t.hidden)) _ _ hdisj

/-- Witness for C6: a run with one hidden loader test, one pass, one fail
and one skipped pass; the hidden test counts nowhere and
`passes + fails = 2 ≤ 3 = testsTotal`. -/
theorem testManager_getProgress_counts_witness :
    (⟨5, 2, 3, 1, 1, true, none, none, none, none, none, none⟩ :
      FlutterTestProgress).passes =
      ([(0, ⟨0, "loader", TestOutcome.success, false, true, []⟩),
        (1, ⟨1, "t1", TestOutcome.success, false, false, []⟩),
        (2, ⟨2, "t2", TestOutcome.failure, false, false, []⟩),
        (3, ⟨3, "t3", TestOutcome.success, true, false, []⟩)] :
        List (Nat × TestResult)).countP (fun q =>
          !q.2.hidden && (q.2.result == TestOutcome.success && !q.2.skipped)) ∧
    (⟨5, 2, 3, 1, 1, true, none, none, none, none, none, none⟩ :
      FlutterTestProgress).fails =
      ([(0, ⟨0, "loader", TestOutcome.success, false, true, []⟩),
        (1, ⟨1, "t1", TestOutcome.success, false, false, []⟩),
        (2, ⟨2, "t2", TestOutcome.failure, false, false, []⟩),
        (3, ⟨3, "t3", TestOutcome.success, true, false, []⟩)] :
        List (Nat × TestResult)).countP (fun q =>
          !q.2.hidden && ((q.2.result == TestOutcome.failure ||
            q.2.result == TestOutcome.error) && !q.2.skipped)) ∧
    (⟨5, 2, 3, 1, 1, true, none, none, none, none, none, none⟩ :
      FlutterTestProgress).testsTotal =
      ([(0, ⟨0, "loader", TestOutcome.success, false, true, []⟩),
        (1, ⟨1, "t1", TestOutcome.success, false, false, []⟩),
        (2, ⟨2, "t2", TestOutcome.failure, false, false, []⟩),
        (3, ⟨3, "t3", TestOutcome.success, true, false, []⟩)] :
        List (Nat × TestResult)).countP (fun q => !q.2.hidden) ∧
    (⟨5, 2, 3, 1, 1, true, none, none, none, none, none, none⟩ :
        FlutterTestProgress).passes +
      (⟨5, 2, 3, 1, 1, true, none, none, none, none, none, none⟩ :
        FlutterTestProgress).fails ≤
      (⟨5, 2, 3, 1, 1, true, none, none, none, none, none, none⟩ :
        FlutterTestProgress).testsTotal :=
  testManager_getProgress_counts
    ⟨none,
     [(5, ⟨5, 0, none,
        [(0, ⟨0, "loader", TestOutcome.success, false, true, []⟩),
         (1, ⟨1, "t1", TestOutcome.success, false, false, []⟩),
         (2, ⟨2, "t2", TestOutcome.failure, false, false, []⟩),
         (3, ⟨3, "t3", TestOutcome.success, true, false, []⟩)],
        [], 0, true, some false, []⟩)], 6⟩
    5 false 0 100
    ⟨5, 0, none,
      [(0, ⟨0, "loader", TestOutcome.success, false, true, []⟩),
       (1, ⟨1, "t1", TestOutcome.success, false, false, []⟩),
       (2, ⟨2, "t2", TestOutcome.failure, false, false, []⟩),
       (3, ⟨3, "t3", TestOutcome.success, true, false, []⟩)],
      [], 0, true, some false, []⟩
    ⟨5, 2, 3, 1, 1, true, none, none, none, none, none, none⟩
    (by decide) (by decide)

/-! ## Node POSIX path model (src/session/manager.ts uses `path.resolve`,
`path.join`, `path.normalize`, `path.relative`)

Paths are handled as lists of segments (splitting on `/`); the string
checks of the TS (`startsWith`) are applied to the rendered strings. -/

/-- The core of Node's `normalizeString`: process segments left to right,
dropping empty and `.` segments; `..` pops the previous segment, except
that with `allowAboveRoot` (relative paths) leading `..`s accumulate, and
without it (absolute paths) a `..` at the root is dropped.  The
accumulator is kept reversed. -/
def normAux (allowAboveRoot : Bool) : List String → List String → List String
  | acc, [] => acc.reverse
  | acc, seg :: rest =>
    if seg = "" ∨ seg = "." then
      normAux allowAboveRoot acc rest
    else if seg = ".." then
      match acc with
      | [] =>
        normAux allowAboveRoot (if allowAboveRoot then [".."] else []) rest
      | a :: as =>
        if a = ".." then
          normAux allowAboveRoot (".." :: a :: as) rest
        else
          normAux allowAboveRoot as rest
    else
      normAux allowAboveRoot (seg :: acc) rest

/-- Normalize the segments of an absolute path. -/
def normalizeAbs (segs : List String) : List String :=
  normAux false [] segs

/-- Normalize the segments of a relative path. -/
def normalizeRel (segs : List String) : List String :=
  normAux true [] segs

/-- Split a path string on `/`. -/
def splitSegs (s : String) : List String :=
  jsSplit s (Char.ofNat 47)

/-- A path string is absolute when it starts with `/`. -/
def isAbsolutePath (s : String) : Bool :=
  jsStartsWith s "/"

/-- Join segments of a relative path with `/` (empty list renders as the
empty string, as `path.relative` returns for identical paths). -/
def renderRel : List String → String
  | [] => ""
  | [s] => s
  | s :: rest => s ++ "/" ++ renderRel rest

/-- Render an absolute path. -/
def renderAbs (segs : List String) : String :=
  "/" ++ renderRel segs

/-- `path.relative` on normalized absolute segment lists: drop the common
prefix, then climb with one `..` per remaining `from`-segment. -/
def relSegs : List String → List String → List String
  | [], t => t
  | _ :: fs, [] => List.replicate (fs.length + 1) ".."
  | f :: fs, t :: ts =>
    if f = t then relSegs fs ts
    else List.replicate (fs.length + 1) ".." ++ t :: ts

/-- The fully resolved segments of a user-supplied worktree path under a
configured base: `normalize` the input (absolute inputs are normalized as
absolute, then `join` treats them as relative to the base anyway), `join`
with the base and `resolve`. -/
def resolvedWorktreeSegs (base : List String) (w : String) : List String :=
  normalizeAbs (base ++
    (if isAbsolutePath w then normalizeAbs (splitSegs w)
     else normalizeRel (splitSegs w)))

/-- Error taxonomy of the session manager operations. -/
inductive SMError
  | capacity (msg : String)
  | traversal (msg : String)
  | accessDenied (msg : String)
  | notFound (msg : String)
  | noDirectory (msg : String)
  | notADirectory (msg : String)
  | noPubspec (msg : String)
deriving Repr, DecidableEq

/-- Is the result a path-traversal rejection? -/
def isTraversalError (r : Except SMError String) : Bool :=
  match r with
  | Except.error (SMError.traversal _) => true
  | _ => false

/-- `SessionManager.resolveWorktreePath`: with a configured base path,
normalize, join, resolve, then reject when `relative(basePath, resolved)`
starts with `..` or re-resolving the relative path does not give the
resolved path back; without a base path, resolve against the working
directory.  The base path is the segment list of the absolute path stored
by `configure` (which applies `resolve` to it). -/
def resolveWorktreePath (basePath : Option (List String))
    (cwd : List String) (w : String) : Except SMError String :=
  match basePath with
  | some base =>
    if jsStartsWith (renderRel (relSegs (normalizeAbs base)
        (normalizeAbs (resolvedWorktreeSegs base w)))) ".." = true ∨
      renderAbs (normalizeAbs (base ++ relSegs (normalizeAbs base)
        (normalizeAbs (resolvedWorktreeSegs base w)))) ≠
        renderAbs (resolvedWorktreeSegs base w) then
      Except.error (SMError.traversal
        ("Path traversal detected: " ++ w ++
          " resolves outside base path. Base path: " ++ renderAbs base ++
          ", Resolved: " ++ renderAbs (resolvedWorktreeSegs base w)))
    else
      Except.ok (renderAbs (resolvedWorktreeSegs base w))
  | none =>
    Except.ok (renderAbs
      (if isAbsolutePath w then normalizeAbs (splitSegs w)
       else normalizeAbs (cwd ++ splitSegs w)))

/-! ## Session manager (src/session/manager.ts) over the session store

src/session/state.ts is not part of the provided sources.  Modelled from
the spec: the Session Store is an in-memory keyed collection of Sessions
with `get`/`set`/`delete`/`size` (a JS `Map`), embedded with the same
association-list operations as the other maps. -/

/-- `Session` from src/session/types.ts (`Date` becomes `Nat`). -/
structure Session where
  id : String
  worktreePath : String
  simulatorUdid : Option String
  deviceType : String
  createdAt : Nat
  lastActivityAt : Nat
  flutterProcessManager : Option FlutterProcessManager
  testManager : Option FlutterTestManager
deriving Repr, DecidableEq

/-- Filesystem facts consulted by `createSession` (`existsSync`,
`statSync(...).isDirectory()`). -/
structure FS where
  pathExists : String → Bool
  isDirectory : String → Bool

/-- `SessionManager.createSession`: capacity check against the store
size, path resolution and traversal check, allowed-root prefix check on
the resolved path, existence / directory / `pubspec.yaml` checks, then a
new `Session` is stored under a fresh id.  `allowedRoot` models the
`allowedPathPrefix` configuration field. -/
def createSession (allowedRoot : String) (maxSessions : Nat)
    (basePath : Option (List String)) (cwd : List String) (fs : FS)
    (store : List (String × Session)) (worktreePath deviceType : String)
    (sessionId : String) (now : Nat) :
    Except SMError (List (String × Session) × Session) :=
  if maxSessions ≤ store.length then
    Except.error (SMError.capacity
      ("Maximum number of sessions (" ++ toString maxSessions ++
        ") reached. End an existing session before creating a new one. " ++
        "Active sessions: " ++ toString store.length))
  else
    match resolveWorktreePath basePath cwd worktreePath with
    | Except.error e => Except.error e
    | Except.ok resolvedPath =>
      if jsStartsWith resolvedPath allowedRoot = false then
        Except.error (SMError.accessDenied
          ("Access denied: Project path must be under " ++ allowedRoot ++
            ". Provided path: " ++ worktreePath ++ ", Resolved path: " ++
            resolvedPath))
      else if fs.pathExists resolvedPath = false then
        Except.error (SMError.noDirectory
          ("Flutter project directory does not exist: " ++ resolvedPath))
      else if fs.isDirectory resolvedPath = false then
        Except.error (SMError.notADirectory
          ("Path is not a directory: " ++ resolvedPath))
      else if fs.pathExists (resolvedPath ++ "/pubspec.yaml") = false then
        Except.error (SMError.noPubspec
          ("Not a valid Flutter project (missing pubspec.yaml): " ++
            resolvedPath))
      else
        Except.ok
          (mapSet store sessionId
            ⟨sessionId, resolvedPath, none, deviceType, now, now, none,
              none⟩,
           ⟨sessionId, resolvedPath, none, deviceType, now, now, none,
             none⟩)

/-- The teardown steps `endSession` performs, in order; failures of the
external capabilities are logged as warnings, never rethrown. -/
inductive TeardownStep
  | cleanupProcess
  | shutdownSim (udid : String)
  | deleteSim (udid : String)
  | warnLogged (msg : String)
deriving Repr, DecidableEq

/-- Is the step a logged warning (as opposed to an action)? -/
def TeardownStep.isWarn : TeardownStep → Bool
  | TeardownStep.warnLogged _ => true
  | _ => false

/-- `SessionManager.endSession`: unknown ids fail with not-found; for a
known session, run (1) process-manager cleanup if attached, (2) simulator
shutdown then delete if attached, (3) removal from the store.  The three
`Except` arguments are the outcomes of the external calls; each failure
is recorded as a logged warning and the teardown continues. -/
def endSession (store : List (String × Session)) (sessionId : String)
    (cleanupRes shutdownRes deleteRes : Except String Unit) :
    Except SMError (List (String × Session) × List TeardownStep) :=
  match mapGet store sessionId with
  | none =>
    Except.error (SMError.notFound ("Session not found: " ++ sessionId))
  | some session =>
    Except.ok (mapDelete store sessionId,
      (match session.flutterProcessManager with
       | some _ =>
         [TeardownStep.cleanupProcess] ++
           (match cleanupRes with
            | Except.ok _ => []
            | Except.error e => [TeardownStep.warnLogged e])
       | none => []) ++
      (match session.simulatorUdid with
       | some udid =>
         ([TeardownStep.shutdownSim udid] ++
           (match shutdownRes with
            | Except.ok _ => []
            | Except.error e => [TeardownStep.warnLogged e])) ++
         ([TeardownStep.deleteSim udid] ++
           (match deleteRes with
            | Except.ok _ => []
            | Except.error e => [TeardownStep.warnLogged e]))
       | none => []))

/-! ## Path-normalization lemmas -/

/-- A segment list with no empty, `.` or `..` segments — the shape of any
normalized absolute path. -/
def NormalizedSegs (l : List String) : Prop :=
  ∀ s ∈ l, s ≠ "" ∧ s ≠ "." ∧ s ≠ ".."

instance decNormalizedSegs (l : List String) : Decidable (NormalizedSegs l) :=
  List.decidableBAll _ l

theorem normAux_abs_normalized (rest : List String) :
    ∀ acc : List String, NormalizedSegs acc →
      NormalizedSegs (normAux false acc rest) := by
  induction rest with
  | nil =>
    intro acc hacc
    simp only [normAux]
    intro s hs
    exact hacc s (List.mem_reverse.mp hs)
  | cons seg rest ih =>
    intro acc hacc
    by_cases h1 : seg = "" ∨ seg = "."
    · simp only [normAux, if_pos h1]
      exact ih acc hacc
    · by_cases h2 : seg = ".."
      · simp only [normAux, if_neg h1, if_pos h2]
        cases acc with
        | nil =>
          have hnil : NormalizedSegs ([] : List String) := by
            intro s hs
            cases hs
          simpa using ih [] hnil
        | cons a as =>
          have ha := hacc a (List.mem_cons_self a as)
          show NormalizedSegs (if a = ".." then
            normAux false (".." :: a :: as) rest else normAux false as rest)
          rw [if_neg ha.2.2]
          exact ih as (fun s hs => hacc s (List.mem_cons_of_mem a hs))
      · simp only [normAux, if_neg h1, if_neg h2]
        apply ih (seg :: acc)
        intro s hs
        rcases List.mem_cons.mp hs with hse | hs
        · subst hse
          push_neg at h1
          exact ⟨h1.1, h1.2, h2⟩
        · exact hacc s hs

theorem normAux_abs_of_normalized (l : List String) :
    ∀ acc, NormalizedSegs l → normAux false acc l = acc.reverse ++ l := by
  induction l with
  | nil =>
    intro acc _
    simp [normAux]
  | cons s rest ih =>
    intro acc h
    have hs := h s (List.mem_cons_self s rest)
    have hrest : NormalizedSegs rest :=
      fun x hx => h x (List.mem_cons_of_mem s hx)
    have h1 : ¬ (s = "" ∨ s = ".") := by
      push_neg
      exact ⟨hs.1, hs.2.1⟩
    simp only [normAux, if_neg h1, if_neg hs.2.2]
    rw [ih (s :: acc) hrest]
    simp

theorem normalizeAbs_normalized (l : List String) :
    NormalizedSegs (normalizeAbs l) :=
  normAux_abs_normalized l [] (fun s hs => absurd hs (List.not_mem_nil s))

theorem normalizeAbs_of_normalized (l : List String)
    (h : NormalizedSegs l) : normalizeAbs l = l := by
  unfold normalizeAbs
  rw [normAux_abs_of_normalized l [] h]
  rfl

theorem relSegs_prefix (f t : List String) : relSegs f (f ++ t) = t := by
  induction f with
  | nil => rfl
  | cons a fs ih => simp [relSegs, ih]

theorem relSegs_not_prefix (f t : List String) (h : ¬ f <+: t) :
    ∃ xs, relSegs f t = ".." :: xs := by
  induction f generalizing t with
  | nil => exact absurd List.nil_prefix h
  | cons a fs ih =>
    cases t with
    | nil =>
      refine ⟨List.replicate fs.length "..", ?_⟩
      simp [relSegs, List.replicate_succ ".." fs.length]
    | cons b ts =>
      by_cases hab : a = b
      · subst hab
        have h2 : ¬ fs <+: ts := by
          intro hp
          obtain ⟨u, hu⟩ := hp
          exact h ⟨u, by rw [List.cons_append, hu]⟩
        obtain ⟨xs, hxs⟩ := ih ts h2
        exact ⟨xs, by simp [relSegs, hxs]⟩
      · refine ⟨List.replicate fs.length ".." ++ b :: ts, ?_⟩
        simp [relSegs, hab, List.replicate_succ ".." fs.length]

theorem isPrefixOf_eq_true_iff (l1 l2 : List Char) :
    l1.isPrefixOf l2 = true ↔ l1 <+: l2 :=
  List.isPrefixOf_iff_prefix

theorem jsStartsWith_dotdot_cons (xs : List String) :
    jsStartsWith (renderRel (".." :: xs)) ".." = true := by
  cases xs with
  | nil => decide
  | cons y ys =>
    unfold jsStartsWith
    rw [isPrefixOf_eq_true_iff]
    show "..".data <+: ((".." ++ "/") ++ renderRel (y :: ys)).data
    rw [String.data_append (".." ++ "/") (renderRel (y :: ys)),
      String.data_append ".." "/", List.append_assoc]
    exact List.prefix_append _ _

theorem not_dotdot_prefix_append (cs rest : List Char)
    (h : ¬ (['.', '.'] <+: cs)) (hne : cs ≠ [])
    (hrest : rest = [] ∨ ∃ r, rest = '/' :: r) :
    ¬ (['.', '.'] <+: (cs ++ rest)) := by
  cases cs with
  | nil => exact absurd rfl hne
  | cons c1 cs1 =>
    cases cs1 with
    | nil =>
      intro hpre
      obtain ⟨u, hu⟩ := hpre
      simp only [List.cons_append, List.nil_append] at hu
      injection hu with h1 hu1
      rcases hrest with hr | ⟨r, hr⟩
      · rw [hr] at hu1
        cases hu1
      · rw [hr] at hu1
        injection hu1 with h2 _
        exact absurd h2 (by decide)
    | cons c2 cs2 =>
      intro hpre
      apply h
      obtain ⟨u, hu⟩ := hpre
      simp only [List.cons_append, List.nil_append] at hu
      injection hu with h1 hu1
      injection hu1 with h2 _
      subst h1
      subst h2
      exact ⟨cs2, rfl⟩

theorem jsStartsWith_renderRel_cons (s0 : String) (xs : List String)
    (h0 : jsStartsWith s0 ".." = false) (hne : s0 ≠ "") :
    jsStartsWith (renderRel (s0 :: xs)) ".." = false := by
  have hne2 : s0.data ≠ [] := by
    intro hd
    apply hne
    cases s0 with
    | mk d =>
      cases hd
      rfl
  have hnp : ¬ (['.', '.'] <+: s0.data) := by
    intro hp
    have hcontra : ("..".data).isPrefixOf s0.data = true :=
      (isPrefixOf_eq_true_iff _ _).mpr hp
    rw [jsStartsWith] at h0
    rw [h0] at hcontra
    cases hcontra
  cases xs with
  | nil => exact h0
  | cons y ys =>
    unfold jsStartsWith
    rw [← Bool.not_eq_true, isPrefixOf_eq_true_iff]
    show ¬ ("..".data <+: ((s0 ++ "/") ++ renderRel (y :: ys)).data)
    rw [String.data_append (s0 ++ "/") (renderRel (y :: ys)),
      String.data_append s0 "/", List.append_assoc]
    exact not_dotdot_prefix_append s0.data _ hnp hne2
      (Or.inr ⟨(renderRel (y :: ys)).data, rfl⟩)

/-- Counterexample for C1: the input `..x` resolves to `/base/..x`, a
location still under the base path, yet the traversal check rejects it,
because `relative(basePath, resolved)` is the string `..x`, which starts
with the characters `..`.  So "a path that normalizes to a location still
under basePath passes the traversal check" is false as stated. -/
theorem resolveWorktreePath_dotdot_name_rejected :
    resolvedWorktreeSegs ["base"] "..x" = ["base", "..x"] ∧
    (["base"] <+: resolvedWorktreeSegs ["base"] "..x") ∧
    isTraversalError (resolveWorktreePath (some ["base"]) [] "..x") = true := by
  decide

/-- C1 (amended): with a base path configured, (1) an input whose
resolution escapes the base is rejected with a path-traversal error;
(2) an input resolving under the base passes the traversal check and is
returned resolved, PROVIDED its path relative to the base does not begin
with the characters `..` (a first segment such as `..x` is rejected as
traversal even though it lies under the base); (3) when the resolved path
does not start with the allowed root prefix, `createSession` fails with an
access-denied error naming the resolved path; (4) the accept/reject
decision depends only on the fully resolved path, never on the raw
input. -/
theorem resolveWorktreePath_checks (base : List String)
    (hbase : NormalizedSegs base) (cwd : List String) (w : String) :
    (¬ (base <+: resolvedWorktreeSegs base w) →
      isTraversalError (resolveWorktreePath (some base) cwd w) = true) ∧
    (∀ t, resolvedWorktreeSegs base w = base ++ t →
      (t = [] ∨ ∃ s0 xs, t = s0 :: xs ∧ jsStartsWith s0 ".." = false) →
      resolveWorktreePath (some base) cwd w =
        Except.ok (renderAbs (resolvedWorktreeSegs base w))) ∧
    (∀ (allowedRoot : String) (maxSessions : Nat) (fs : FS)
      (store : List (String × Session)) (deviceType sessionId : String)
      (now : Nat) (rp : String),
      store.length < maxSessions →
      resolveWorktreePath (some base) cwd w = Except.ok rp →
      jsStartsWith rp allowedRoot = false →
      createSession allowedRoot maxSessions (some base) cwd fs store w
        deviceType sessionId now =
        Except.error (SMError.accessDenied
          ("Access denied: Project path must be under " ++ allowedRoot ++
            ". Provided path: " ++ w ++ ", Resolved path: " ++ rp))) ∧
    (∀ w2, resolvedWorktreeSegs base w = resolvedWorktreeSegs base w2 →
      (resolveWorktreePath (some base) cwd w).toOption =
        (resolveWorktreePath (some base) cwd w2).toOption ∧
      isTraversalError (resolveWorktreePath (some base) cwd w) =
        isTraversalError (resolveWorktreePath (some base) cwd w2)) := by
  have hRnorm : NormalizedSegs (resolvedWorktreeSegs base w) :=
    normalizeAbs_normalized _
  have hbase_id : normalizeAbs base = base :=
    normalizeAbs_of_normalized base hbase
  have hR_id : normalizeAbs (resolvedWorktreeSegs base w) =
      resolvedWorktreeSegs base w :=
    normalizeAbs_of_normalized _ hRnorm
  refine ⟨?_, ?_, ?_, ?_⟩
  · intro hnp
    obtain ⟨xs, hxs⟩ :=
      relSegs_not_prefix base (resolvedWorktreeSegs base w) hnp
    simp only [resolveWorktreePath]
    rw [hbase_id, hR_id, hxs,
      if_pos (Or.inl (jsStartsWith_dotdot_cons xs))]
    rfl
  · intro t ht hcase
    have hrel : relSegs base (resolvedWorktreeSegs base w) = t := by
      rw [ht]
      exact relSegs_prefix base t
    have hcheck1 : jsStartsWith (renderRel t) ".." = false := by
      rcases hcase with ht0 | ⟨s0, xs, ht0, h0⟩
      · subst ht0
        decide
      · subst ht0
        apply jsStartsWith_renderRel_cons s0 xs h0
        have hmem : s0 ∈ resolvedWorktreeSegs base w := by
          rw [ht]
          exact List.mem_append_right base (List.mem_cons_self s0 xs)
        exact (hRnorm s0 hmem).1
    have hcheck2 : renderAbs (normalizeAbs (base ++ t)) =
        renderAbs (resolvedWorktreeSegs base w) := by
      rw [← ht, hR_id]
    simp only [resolveWorktreePath]
    rw [hbase_id, hR_id, hrel, if_neg ?hcond]
    case hcond =>
      intro hor
      rcases hor with hcon | hcon
      · rw [hcheck1] at hcon
        cases hcon
      · exact hcon hcheck2
  · intro allowedRoot maxSessions fs store deviceType sessionId now rp
      hlt hres hpre
    simp only [createSession, hres]
    rw [if_neg (by omega), if_pos hpre]
  · intro w2 heq
    refine ⟨?_, ?_⟩ <;>
    · simp only [resolveWorktreePath]
      rw [heq]
      by_cases hc : (jsStartsWith (renderRel (relSegs (normalizeAbs base)
          (normalizeAbs (resolvedWorktreeSegs base w2)))) ".." = true ∨
        renderAbs (normalizeAbs (base ++ relSegs (normalizeAbs base)
          (normalizeAbs (resolvedWorktreeSegs base w2)))) ≠
          renderAbs (resolvedWorktreeSegs base w2))
      · rw [if_pos hc, if_pos hc]
        rfl
      · rw [if_neg hc, if_neg hc]

/-- Witness for C1 (amended): with base `/base` — (1) `../../etc` escapes
and is rejected as traversal; (2) `sub/../sub2` resolves under the base
with benign relative path `sub2` and is accepted as `/base/sub2`;
(3) with allowed root `/allowed`, the resolved path `/base/sub2` fails the
prefix check and `createSession` reports access-denied. -/
theorem resolveWorktreePath_checks_witness :
    isTraversalError
      (resolveWorktreePath (some ["base"]) [] "../../etc") = true ∧
    resolveWorktreePath (some ["base"]) [] "sub/../sub2" =
      Except.ok "/base/sub2" ∧
    createSession "/allowed" 10 (some ["base"]) []
      ⟨fun _ => true, fun _ => true⟩ [] "sub/../sub2" "iPhone 16 Pro"
      "sid-1" 0 =
      Except.error (SMError.accessDenied
        ("Access denied: Project path must be under " ++ "/allowed" ++
          ". Provided path: " ++ "sub/../sub2" ++ ", Resolved path: " ++
          "/base/sub2")) :=
  ⟨(resolveWorktreePath_checks ["base"] (by decide) [] "../../etc").1
      (by decide),
   (resolveWorktreePath_checks ["base"] (by decide) [] "sub/../sub2").2.1
      ["sub2"] (by decide) (Or.inr ⟨"sub2", [], rfl, by decide⟩),
   (resolveWorktreePath_checks ["base"] (by decide) [] "sub/../sub2").2.2.1
      "/allowed" 10 ⟨fun _ => true, fun _ => true⟩ [] "iPhone 16 Pro"
      "sid-1" 0 "/base/sub2" (by decide)
      ((resolveWorktreePath_checks ["base"] (by decide) [] "sub/../sub2").2.1
        ["sub2"] (by decide) (Or.inr ⟨"sub2", [], rfl, by decide⟩))
      (by decide)⟩

/-- C3: `endSession` on an unknown id fails with a not-found error; on a
known session it succeeds regardless of which external steps fail, the
session is always removed from the store, and the actions performed —
logged warnings aside — are, in order: process-manager cleanup when one
is attached, then simulator shutdown then simulator delete when a
simulator is attached.  No step failure prevents a later step and none
propagates to the caller. -/
theorem endSession_teardown (store : List (String × Session))
    (sessionId : String)
    (cleanupRes shutdownRes deleteRes : Except String Unit) :
    (mapGet store sessionId = none →
      endSession store sessionId cleanupRes shutdownRes deleteRes =
        Except.error
          (SMError.notFound ("Session not found: " ++ sessionId))) ∧
    (∀ session, mapGet store sessionId = some session →
      (endSession store sessionId cleanupRes shutdownRes
          deleteRes).toOption.map (fun r => r.1) =
        some (mapDelete store sessionId) ∧
      (endSession store sessionId cleanupRes shutdownRes
          deleteRes).toOption.map
          (fun r => r.2.filter (fun st => !(st.isWarn))) =
        some ((match session.flutterProcessManager with
          | some _ => [TeardownStep.cleanupProcess]
          | none => []) ++
          (match session.simulatorUdid with
          | some udid =>
            [TeardownStep.shutdownSim udid, TeardownStep.deleteSim udid]
          | none => [])) ∧
      mapGet (mapDelete store sessionId) sessionId = none) := by
  constructor
  · intro h
    simp only [endSession, h]
  · intro session hs
    refine ⟨?_, ?_, mapGet_mapDelete_self store sessionId⟩
    · simp [endSession, hs, Except.toOption]
    · cases hpm : session.flutterProcessManager <;>
      cases hsim : session.simulatorUdid <;>
      cases cleanupRes <;> cases shutdownRes <;> cases deleteRes <;>
        simp [endSession, hs, hpm, hsim, Except.toOption,
          TeardownStep.isWarn]

/-- Witness for C3 (the spec's scenario 6): a session with an attached
process manager and simulator `UDID-9` whose shutdown call throws —
`endSession` still deletes the simulator, removes the session, and
returns successfully. -/
theorem endSession_teardown_witness :
    (endSession
        [("s1", ⟨"s1", "/base/app", some "UDID-9", "iPhone 16 Pro", 0, 0,
          some (FlutterProcessManager.new 10), none⟩)] "s1"
        (Except.ok ()) (Except.error "simctl shutdown failed")
        (Except.ok ())).toOption.map (fun r => r.1) =
      some (mapDelete
        [("s1", ⟨"s1", "/base/app", some "UDID-9", "iPhone 16 Pro", 0, 0,
          some (FlutterProcessManager.new 10), none⟩)] "s1") ∧
    (endSession
        [("s1", ⟨"s1", "/base/app", some "UDID-9", "iPhone 16 Pro", 0, 0,
          some (FlutterProcessManager.new 10), none⟩)] "s1"
        (Except.ok ()) (Except.error "simctl shutdown failed")
        (Except.ok ())).toOption.map
        (fun r => r.2.filter (fun st => !(st.isWarn))) =
      some [TeardownStep.cleanupProcess, TeardownStep.shutdownSim "UDID-9",
        TeardownStep.deleteSim "UDID-9"] ∧
    mapGet (mapDelete
      ([("s1", ⟨"s1", "/base/app", some "UDID-9", "iPhone 16 Pro", 0, 0,
        some (FlutterProcessManager.new 10), none⟩)] :
        List (String × Session)) "s1") "s1" = none :=
  (endSession_teardown
      [("s1", ⟨"s1", "/base/app", some "UDID-9", "iPhone 16 Pro", 0, 0,
        some (FlutterProcessManager.new 10), none⟩)] "s1"
      (Except.ok ()) (Except.error "simctl shutdown failed")
      (Except.ok ())).2
    ⟨"s1", "/base/app", some "UDID-9", "iPhone 16 Pro", 0, 0,
      some (FlutterProcessManager.new 10), none⟩ (by decide)

theorem length_mapDelete_lt {κ α : Type} [BEq κ] (l : List (κ × α)) (k : κ)
    (s : α) (h : mapGet l k = some s) :
    (mapDelete l k).length < l.length := by
  induction l with
  | nil => simp [mapGet] at h
  | cons p t ih =>
    by_cases hp : (p.1 == k) = true
    · unfold mapDelete
      rw [List.filter_cons]
      have hcond : (!(p.1 == k)) = false := by
        rw [hp]
        rfl
      simp only [hcond, Bool.false_eq_true, if_false, List.length_cons]
      have hle := List.length_filter_le (fun q => !(q.1 == k)) t
      omega
    · have ht : mapGet t k = some s := by
        unfold mapGet at h ⊢
        rw [find?_cons_false p t (fun q => q.1 == k)
          (by simpa using hp)] at h
        exact h
      unfold mapDelete at ih ⊢
      rw [List.filter_cons]
      have hcond : (!(p.1 == k)) = true := by
        simp only [Bool.not_eq_true'] at hp ⊢
        simpa using hp
      simp only [hcond, if_true, List.length_cons]
      have hlt := ih ht
      omega

theorem createSession_ok_of_checks (allowedRoot : String)
    (maxSessions : Nat) (basePath : Option (List String))
    (cwd : List String) (fs : FS) (store : List (String × Session))
    (worktreePath deviceType sessionId : String) (now : Nat) (rp : String)
    (hlt : store.length < maxSessions)
    (hres : resolveWorktreePath basePath cwd worktreePath = Except.ok rp)
    (hpre : jsStartsWith rp allowedRoot = true)
    (hex : fs.pathExists rp = true)
    (hdir : fs.isDirectory rp = true)
    (hpub : fs.pathExists (rp ++ "/pubspec.yaml") = true) :
    createSession allowedRoot maxSessions basePath cwd fs store
      worktreePath deviceType sessionId now =
      Except.ok (mapSet store sessionId
        ⟨sessionId, rp, none, deviceType, now, now, none, none⟩,
        ⟨sessionId, rp, none, deviceType, now, now, none, none⟩) := by
  simp only [createSession, hres]
  rw [if_neg (by omega), if_neg (by simp [hpre]), if_neg (by simp [hex]),
    if_neg (by simp [hdir]), if_neg (by simp [hpub])]

/-- C8: creating a session succeeds while the store holds fewer than
`maxSessions` sessions (given the path and project checks pass); an
attempt at the cap fails with a capacity error whose message carries the
configured limit; ending a session strictly shrinks the store and then —
the store being back under the cap — the next creation succeeds again. -/
theorem createSession_capacity (allowedRoot : String) (maxSessions : Nat)
    (basePath : Option (List String)) (cwd : List String) (fs : FS)
    (store : List (String × Session))
    (worktreePath deviceType sessionId : String) (now : Nat) :
    (maxSessions ≤ store.length →
      createSession allowedRoot maxSessions basePath cwd fs store
        worktreePath deviceType sessionId now =
        Except.error (SMError.capacity
          ("Maximum number of sessions (" ++ toString maxSessions ++
            ") reached. End an existing session before creating a new one. " ++
            "Active sessions: " ++ toString store.length))) ∧
    (∀ rp, store.length < maxSessions →
      resolveWorktreePath basePath cwd worktreePath = Except.ok rp →
      jsStartsWith rp allowedRoot = true →
      fs.pathExists rp = true →
      fs.isDirectory rp = true →
      fs.pathExists (rp ++ "/pubspec.yaml") = true →
      createSession allowedRoot maxSessions basePath cwd fs store
        worktreePath deviceType sessionId now =
        Except.ok (mapSet store sessionId
          ⟨sessionId, rp, none, deviceType, now, now, none, none⟩,
          ⟨sessionId, rp, none, deviceType, now, now, none, none⟩)) ∧
    (∀ sid2 session cr sr dr, mapGet store sid2 = some session →
      (mapDelete store sid2).length < store.length ∧
      (endSession store sid2 cr sr dr).toOption.map (fun r => r.1) =
        some (mapDelete store sid2)) ∧
    (∀ sid2 session rp, mapGet store sid2 = some session →
      store.length = maxSessions →
      resolveWorktreePath basePath cwd worktreePath = Except.ok rp →
      jsStartsWith rp allowedRoot = true →
      fs.pathExists rp = true →
      fs.isDirectory rp = true →
      fs.pathExists (rp ++ "/pubspec.yaml") = true →
      createSession allowedRoot maxSessions basePath cwd fs
        (mapDelete store sid2) worktreePath deviceType sessionId now =
        Except.ok (mapSet (mapDelete store sid2) sessionId
          ⟨sessionId, rp, none, deviceType, now, now, none, none⟩,
          ⟨sessionId, rp, none, deviceType, now, now, none, none⟩)) := by
  refine ⟨?_, ?_, ?_, ?_⟩
  · intro hfull
    simp only [createSession]
    rw [if_pos hfull]
  · intro rp hlt hres hpre hex hdir hpub
    exact createSession_ok_of_checks allowedRoot maxSessions basePath cwd
      fs store worktreePath deviceType sessionId now rp hlt hres hpre hex
      hdir hpub
  · intro sid2 session cr sr dr hs
    refine ⟨length_mapDelete_lt store sid2 session hs, ?_⟩
    simp [endSession, hs, Except.toOption]
  · intro sid2 session rp hs hfull hres hpre hex hdir hpub
    have hshrink := length_mapDelete_lt store sid2 session hs
    exact createSession_ok_of_checks allowedRoot maxSessions basePath cwd
      fs (mapDelete store sid2) worktreePath deviceType sessionId now rp
      (by omega) hres hpre hex hdir hpub

/-- Witness for C8: with `maxSessions = 1` and a full store, creation
fails with the capacity error naming the limit 1; creation on the empty
store succeeds; and after ending the stored session, creation succeeds
again on the shrunken store. -/
theorem createSession_capacity_witness :
    createSession "/base" 1 (some ["base"]) []
      ⟨fun _ => true, fun _ => true⟩
      [("s1", ⟨"s1", "/base/old", none, "iPhone 16 Pro", 0, 0, none,
        none⟩)] "app" "iPhone 16 Pro" "s2" 7 =
      Except.error (SMError.capacity
        ("Maximum number of sessions (" ++ toString 1 ++
          ") reached. End an existing session before creating a new one. " ++
          "Active sessions: " ++ toString 1)) ∧
    createSession "/base" 1 (some ["base"]) []
      ⟨fun _ => true, fun _ => true⟩ [] "app" "iPhone 16 Pro" "s2" 7 =
      Except.ok (mapSet [] "s2"
        ⟨"s2", "/base/app", none, "iPhone 16 Pro", 7, 7, none, none⟩,
        ⟨"s2", "/base/app", none, "iPhone 16 Pro", 7, 7, none, none⟩) ∧
    createSession "/base" 1 (some ["base"]) []
      ⟨fun _ => true, fun _ => true⟩
      (mapDelete [("s1", ⟨"s1", "/base/old", none, "iPhone 16 Pro", 0, 0,
        none, none⟩)] "s1") "app" "iPhone 16 Pro" "s2" 7 =
      Except.ok (mapSet (mapDelete
        [("s1", ⟨"s1", "/base/old", none, "iPhone 16 Pro", 0, 0, none,
          none⟩)] "s1") "s2"
        ⟨"s2", "/base/app", none, "iPhone 16 Pro", 7, 7, none, none⟩,
        ⟨"s2", "/base/app", none, "iPhone 16 Pro", 7, 7, none, none⟩) :=
  ⟨(createSession_capacity "/base" 1 (some ["base"]) []
      ⟨fun _ => true, fun _ => true⟩
      [("s1", ⟨"s1", "/base/old", none, "iPhone 16 Pro", 0, 0, none,
        none⟩)] "app" "iPhone 16 Pro" "s2" 7).1 (by decide),
   (createSession_capacity "/base" 1 (some ["base"]) []
      ⟨fun _ => true, fun _ => true⟩ [] "app" "iPhone 16 Pro" "s2" 7).2.1
      "/base/app" (by decide) rfl (by decide) rfl rfl rfl,
   (createSession_capacity "/base" 1 (some ["base"]) []
      ⟨fun _ => true, fun _ => true⟩
      [("s1", ⟨"s1", "/base/old", none, "iPhone 16 Pro", 0, 0, none,
        none⟩)] "app" "iPhone 16 Pro" "s2" 7).2.2.2 "s1"
      ⟨"s1", "/base/old", none, "iPhone 16 Pro", 0, 0, none, none⟩
      "/base/app"
      (by decide) (by decide) rfl (by decide) rfl rfl rfl⟩

end FlutterIosMcp
